import Mathlib

/-!
Verification development for the marine-weather aggregation repository.

The JavaScript sources are shallowly embedded here:
* pure numeric helpers become functions on `ℚ`;
* JavaScript numbers that can be `NaN` or `±Infinity` are embedded as `JSNum`
  (exact rational arithmetic stands in for IEEE doubles; double rounding and
  overflow of finite intermediate results are not modelled, but `NaN` and the
  infinities produced by parsing are);
* `null`/`undefined` become `Option`;
* thrown exceptions become `Except.error`;
* wall-clock instants become epoch milliseconds (`ℤ`) and local calendar
  fields (`LocalTime`), mirroring the `Date` getters the code calls.
-/

deriving instance DecidableEq for Except

namespace SpiWeather

/-- A JavaScript number: `NaN`, a signed infinity, or a finite value
(modelled exactly as a rational). -/
inductive JSNum where
  | nan : JSNum
  | inf (neg : Bool) : JSNum
  | num (q : ℚ) : JSNum
deriving DecidableEq

/-- Is this JS number finite (neither `NaN` nor an infinity)? -/
def JSNum.isFinite : JSNum → Bool
  | JSNum.num _ => true
  | _ => false

/-- Characters treated as whitespace by the JS `\s` class and `trim`
(space, tab, LF, CR, vertical tab, form feed; exotic Unicode spaces are not
modelled — none occur in the upstream text formats). -/
def isWsC (c : Char) : Bool :=
  c = ' ' || c = '\t' || c = '\n' || c = '\r' || c.toNat = 11 || c.toNat = 12

/-- Value of a digit string (most significant first). -/
def digitsToNat (cs : List Char) : ℕ :=
  cs.foldl (fun a c => 10 * a + (c.toNat - 48)) 0

/-- Exponent suffix accepted by JS `parseFloat` after the mantissa:
`e`/`E`, an optional sign, then at least one digit; an invalid suffix is not
consumed, leaving exponent 0 (longest *valid* prefix rule). -/
def expPart (cs : List Char) : ℤ :=
  match cs with
  | [] => 0
  | c :: rest =>
    if c = 'e' || c = 'E' then
      match rest with
      | [] => 0
      | c2 :: rest2 =>
        if c2 = '-' then
          (if (rest2.takeWhile Char.isDigit).isEmpty then 0
           else -(digitsToNat (rest2.takeWhile Char.isDigit) : ℤ))
        else if c2 = '+' then
          (if (rest2.takeWhile Char.isDigit).isEmpty then 0
           else (digitsToNat (rest2.takeWhile Char.isDigit) : ℤ))
        else
          (if (rest.takeWhile Char.isDigit).isEmpty then 0
           else (digitsToNat (rest.takeWhile Char.isDigit) : ℤ))
    else 0

/-- ECMAScript `parseFloat`: skip leading whitespace, optional sign, then the
longest prefix that is `Infinity` or a decimal literal
(`digits [. digits] [exp]` or `. digits [exp]`); `NaN` if no such prefix. -/
def jsParseFloat (s : String) : JSNum :=
  let cs := s.data.dropWhile isWsC
  let sgn : Bool × List Char :=
    match cs with
    | c :: rest =>
      if c = '-' then (true, rest) else if c = '+' then (false, rest) else (false, cs)
    | [] => (false, [])
  let neg := sgn.1
  let cs1 := sgn.2
  if List.isPrefixOf "Infinity".data cs1 then JSNum.inf neg
  else
    let d1 := cs1.takeWhile Char.isDigit
    let r1 := cs1.dropWhile Char.isDigit
    let fr : List Char × List Char :=
      match r1 with
      | c :: rest => if c = '.' then (rest.takeWhile Char.isDigit, rest.dropWhile Char.isDigit) else ([], r1)
      | [] => ([], [])
    let d2 := fr.1
    let r2 := fr.2
    if d1.isEmpty && d2.isEmpty then JSNum.nan
    else
      let mant : ℚ := (digitsToNat d1 : ℚ) + (digitsToNat d2 : ℚ) / (10 : ℚ) ^ d2.length
      let e : ℤ := expPart r2
      JSNum.num ((if neg then -mant else mant) * (10 : ℚ) ^ e)

/-- Model of `parseNum` from `weather.js`: `null`/`undefined` and the sentinel `"--"`
map to `null`; otherwise `parseFloat`, with a `NaN` result mapped to `null`. -/
def parseNum (x : Option String) : Option JSNum :=
  match x with
  | none => none
  | some s =>
    if s = "--" then none
    else
      match jsParseFloat s with
      | JSNum.nan => none
      | v => some v

/-- Model of `cToF` from `weather.js` (`CtoF` in the unnamed handler):
`(c * 9) / 5 + 32`, with `NaN` and infinities propagated as in JS. -/
def cToF : JSNum → JSNum
  | JSNum.nan => JSNum.nan
  | JSNum.inf b => JSNum.inf b
  | JSNum.num q => JSNum.num (q * 9 / 5 + 32)

/-- Model of `mpsToKts`: `m * 1.94384` with `NaN`/infinities propagated. -/
def mpsToKts : JSNum → JSNum
  | JSNum.nan => JSNum.nan
  | JSNum.inf b => JSNum.inf b
  | JSNum.num q => JSNum.num (q * (194384 / 100000 : ℚ))

/-- Model of `Math.round(x * 10) / 10` from `weather.js` (`Math.round` rounds half
toward `+∞`, i.e. `⌊x + 1/2⌋`); `NaN`/infinities pass through. -/
def jsRound1 : JSNum → JSNum
  | JSNum.nan => JSNum.nan
  | JSNum.inf b => JSNum.inf b
  | JSNum.num q => JSNum.num ((Int.floor (q * 10 + 1 / 2) : ℚ) / 10)

/-- Rounding of a rational to one decimal with ties away from zero,
modelling `Number(n.toFixed(1))` on an exact value. -/
def oneDecQ (q : ℚ) : ℚ :=
  if q < 0 then -((Int.floor (-q * 10 + 1 / 2) : ℚ) / 10)
  else (Int.floor (q * 10 + 1 / 2) : ℚ) / 10

/-- Model of `oneDec` of the unnamed handler lifted to JS numbers
(`Infinity.toFixed(1)` is `"Infinity"`, which `Number` maps back to
`Infinity`). -/
def oneDecJS : JSNum → JSNum
  | JSNum.nan => JSNum.nan
  | JSNum.inf b => JSNum.inf b
  | JSNum.num q => JSNum.num (oneDecQ q)

/-- Truncation toward zero of a rational, as JS `%` uses for its quotient. -/
def ratTrunc (q : ℚ) : ℤ := if q < 0 then Int.ceil q else Int.floor q

/-- JS remainder `a % b` on finite numbers: `a - b * trunc (a / b)`. -/
def jsRemQ (a b : ℚ) : ℚ := a - b * (ratTrunc (a / b) : ℚ)

/-- The 16-point compass rose table from `degToCardinal`. -/
def dirs : List String :=
  ["N", "NNE", "NE", "ENE", "E", "ESE", "SE", "SSE",
   "S", "SSW", "SW", "WSW", "W", "WNW", "NW", "NNW"]

/-- Model of `degToCardinal` from `weather.js`: `null` maps to `"--"`, otherwise
`dirs[Math.floor((d % 360) / 22.5 + 0.5) % 16]`. A `NaN`/infinite input makes
the index `NaN` and the array access yield `undefined` (embedded as the
string `"undefined"`); an index that is a negative integer likewise misses
the array. -/
def degToCardinal (d : Option JSNum) : String :=
  match d with
  | none => "--"
  | some JSNum.nan => "undefined"
  | some (JSNum.inf _) => "undefined"
  | some (JSNum.num q) =>
    let i : ℤ := Int.floor (jsRemQ q 360 / (45 / 2 : ℚ) + 1 / 2)
    let j : ℤ := Int.tmod i 16
    if 0 ≤ j then dirs.getD j.toNat "undefined" else "undefined"

/-- Variant of `degToCardinal` in the unnamed handler: identical table and formula but
`null` maps to `null` instead of `"--"`. -/
def degToCardinalP0 (d : Option JSNum) : Option String :=
  d.map (fun v => degToCardinal (some v))

/-! ### Text tokenization (split on `/\r?\n/`, `trim`, split on `/\s+/`) -/

/-- Split a character stream at `'\n'` (keeping empty segments, as JS
`split` does). -/
def splitNl : List Char → List (List Char)
  | [] => [[]]
  | c :: t =>
    if c = '\n' then [] :: splitNl t
    else
      match splitNl t with
      | l :: ls => (c :: l) :: ls
      | [] => [[c]]

/-- Drop one trailing `'\r'`, so that `splitNl` plus this models
`split(/\r?\n/)`. -/
def dropCr (l : List Char) : List Char :=
  if l.getLast? = some '\r' then l.dropLast else l

/-- The line list of a report, as produced by `text.split(/\r?\n/)`. -/
def jsLines (s : String) : List (List Char) := (splitNl s.data).map dropCr

/-- JS `String.prototype.trim`. -/
def jsTrim (l : List Char) : List Char :=
  ((l.dropWhile isWsC).reverse.dropWhile isWsC).reverse

/-- Worker for `tokens`: accumulate the current token (reversed). -/
def tokensGo : List Char → List Char → List String
  | [], acc => if acc.isEmpty then [] else [⟨acc.reverse⟩]
  | c :: t, acc =>
    if isWsC c then
      if acc.isEmpty then tokensGo t [] else (⟨acc.reverse⟩ : String) :: tokensGo t []
    else tokensGo t (c :: acc)

/-- Model of `trimmed.split(/\s+/)`: the whitespace-separated tokens of a line
(the sources always call it on trimmed, non-empty lines, where this agrees
with JS `split`). -/
def tokens (l : List Char) : List String := tokensGo l []

/-- Does the line start with `'#'`? -/
def startsHash : List Char → Bool
  | c :: _ => c = '#'
  | [] => false

/-- Does the line contain the substring `"WDIR"` (JS `includes`)? -/
def containsWdir : List Char → Bool
  | [] => false
  | c :: t => List.isPrefixOf "WDIR".data (c :: t) || containsWdir t

/-- Remove the first `'#'` (JS `replace("#", "")`). -/
def removeFirstHash : List Char → List Char
  | [] => []
  | c :: t => if c = '#' then t else c :: removeFirstHash t

/-- JS `Array.prototype.indexOf`, returning `-1` when absent. -/
def idxOfGo (x : String) : List String → ℤ → ℤ
  | [], _ => -1
  | y :: t, n => if y = x then n else idxOfGo x t (n + 1)

/-- Column lookup `header.indexOf(name)`. -/
def jsIndexOf (l : List String) (x : String) : ℤ := idxOfGo x l 0

/-! ### Buoy adapter, `weather.js` variant -/

/-- The five column indices looked up by both buoy adapters. -/
structure BuoyIdx where
  wdir : ℤ
  wspd : ℤ
  gst : ℤ
  atmp : ℤ
  wtmp : ℤ
deriving DecidableEq

/-- Column lookup of the five named headers (index `-1` when absent). -/
def mkIdx (header : List String) : BuoyIdx :=
  { wdir := jsIndexOf header "WDIR"
    wspd := jsIndexOf header "WSPD"
    gst := jsIndexOf header "GST"
    atmp := jsIndexOf header "ATMP"
    wtmp := jsIndexOf header "WTMP" }

/-- JS `r[i]` on a token row: `undefined` (`none`) when the index is `-1`
or past the end. -/
def getTok (r : List String) (i : ℤ) : Option String :=
  if 0 ≤ i then r.get? i.toNat else none

/-- The accumulator of `weather.js`'s row scan:
`airC`, `waterC`, `wspd`, `gust`, `wdir`, each still-`null` until filled. -/
structure RawVals where
  airC : Option JSNum
  waterC : Option JSNum
  wspd : Option JSNum
  gust : Option JSNum
  wdir : Option JSNum
deriving DecidableEq

/-- One conditional assignment
`if (v == null && idx !== -1) v = parseNum(r[idx])`. -/
def stepField (cur : Option JSNum) (i : ℤ) (r : List String) : Option JSNum :=
  if cur = none ∧ i ≠ -1 then parseNum (getTok r i) else cur

/-- The five conditional assignments performed for one data row. -/
def scanStep (idx : BuoyIdx) (r : List String) (v : RawVals) : RawVals :=
  { airC := stepField v.airC idx.atmp r
    waterC := stepField v.waterC idx.wtmp r
    wspd := stepField v.wspd idx.wspd r
    gust := stepField v.gust idx.gst r
    wdir := stepField v.wdir idx.wdir r }

/-- The early-exit test
`airC!=null && waterC!=null && wspd!=null && gust!=null && wdir!=null`. -/
def allFound (v : RawVals) : Bool :=
  v.airC.isSome && v.waterC.isSome && v.wspd.isSome && v.gust.isSome && v.wdir.isSome

/-- The `for (const r of dataRows) { ...; if (all found) break; }` loop of
`weather.js`'s `fetchBuoy`. -/
def buoyScan (idx : BuoyIdx) : List (List String) → RawVals → RawVals
  | [], v => v
  | r :: t, v =>
    let v2 := scanStep idx r v
    if allFound v2 then v2 else buoyScan idx t v2

/-- The normalized buoy record emitted by `weather.js`'s `fetchBuoy`. -/
structure BuoyRecord where
  airF : Option JSNum
  waterF : Option JSNum
  windKts : Option JSNum
  gustKts : Option JSNum
  windDirCardinal : String
deriving DecidableEq

/-- The return object of `weather.js`'s `fetchBuoy`: each temperature is
`Math.round(cToF(x) * 10) / 10` when present, each speed
`Math.round(mpsToKts(x) * 10) / 10`, and the direction
`wdir != null ? degToCardinal(wdir) : "--"`. -/
def mkBuoyRecord (v : RawVals) : BuoyRecord :=
  { airF := v.airC.map (fun c => jsRound1 (cToF c))
    waterF := v.waterC.map (fun c => jsRound1 (cToF c))
    windKts := v.wspd.map (fun m => jsRound1 (mpsToKts m))
    gustKts := v.gust.map (fun m => jsRound1 (mpsToKts m))
    windDirCardinal :=
      match v.wdir with
      | none => "--"
      | some w => degToCardinal (some w) }

/-- The non-comment, non-blank lines kept by `weather.js`
(`l.trim() && !l.startsWith("#")`, on the raw line). -/
def wjsLines (text : String) : List (List Char) :=
  (jsLines text).filter (fun l => !(jsTrim l).isEmpty && !startsHash l)

/-- The `rows` value: each kept line trimmed and split on whitespace. -/
def wjsRows (text : String) : List (List String) :=
  (wjsLines text).map (fun l => tokens (jsTrim l))

/-- Parsing core of `weather.js`'s `fetchBuoy`: the first non-comment row is
used as the header (`rows[0]`); with no rows at all, `header.indexOf`
throws (embedded as `Except.error`). -/
def fetchBuoyWJS (text : String) : Except String BuoyRecord :=
  match wjsRows text with
  | [] => Except.error "TypeError: cannot read header"
  | header :: dataRows =>
    Except.ok (mkBuoyRecord (buoyScan (mkIdx header) dataRows
      ⟨none, none, none, none, none⟩))

/-! ### Buoy adapter, unnamed-handler (`part_000`) variant -/

/-- Non-blank lines (`lines.filter(l => l.trim())`). -/
def p0Lines (text : String) : List (List Char) :=
  (jsLines text).filter (fun l => !(jsTrim l).isEmpty)

/-- Header search `lines.find(l => l.startsWith("#") && l.includes("WDIR"))`. -/
def p0HeaderLine (text : String) : Option (List Char) :=
  (p0Lines text).find? (fun l => startsHash l && containsWdir l)

/-- The located header tokenized:
`headerLine.replace("#", "").trim().split(/\s+/)`. -/
def p0Header (text : String) : Option (List String) :=
  (p0HeaderLine text).map (fun hl => tokens (jsTrim (removeFirstHash hl)))

/-- Model of `get = i => (i >= 0 && i < c.length ? parseFloat(c[i]) : null)`. -/
def p0Get (c : List String) (i : ℤ) : Option JSNum :=
  if 0 ≤ i ∧ i.toNat < c.length then some (jsParseFloat (c.getD i.toNat "")) else none

/-- One parsed data row of the unnamed handler. -/
structure P0Row where
  wdir : Option JSNum
  wspd : Option JSNum
  gst : Option JSNum
  atmp : Option JSNum
  wtmp : Option JSNum
deriving DecidableEq

/-- Build one row object from a data line's tokens. -/
def p0MkRow (idx : BuoyIdx) (c : List String) : P0Row :=
  ⟨p0Get c idx.wdir, p0Get c idx.wspd, p0Get c idx.gst, p0Get c idx.atmp, p0Get c idx.wtmp⟩

/-- The parsed data rows: every non-`#` line, trimmed and split. -/
def p0Rows (text : String) (idx : BuoyIdx) : List P0Row :=
  ((p0Lines text).filter (fun l => !startsHash l)).map (fun l => p0MkRow idx (tokens (jsTrim l)))

/-- The guard `v != null && !isNaN(v)`: keep a value only if present and not `NaN`. -/
def jsValid : Option JSNum → Option JSNum
  | some JSNum.nan => none
  | o => o

/-- Model of `newest`: first row whose value for this field is present and numeric. -/
def p0Newest (rows : List P0Row) (f : P0Row → Option JSNum) : Option JSNum :=
  rows.findSome? (fun r => jsValid (f r))

/-- The record emitted by the unnamed handler's `fetchBuoy`
(`oneDec` rounding, nullable compass direction). -/
structure P0Record where
  airF : Option JSNum
  waterF : Option JSNum
  windKts : Option JSNum
  gustKts : Option JSNum
  windDirCardinal : Option String
deriving DecidableEq

/-- The unnamed handler's `fetchBuoy` parsing core: the header is searched
among the lines (`#`-marked, containing `WDIR`); when it is absent,
`headerLine.replace` throws (embedded as `Except.error`). -/
def fetchBuoyP0 (text : String) : Except String P0Record :=
  match p0Header text with
  | none => Except.error "TypeError: cannot read properties of undefined"
  | some header =>
    let idx := mkIdx header
    let rows := p0Rows text idx
    let airC := p0Newest rows (fun r => r.atmp)
    let waterC := p0Newest rows (fun r => r.wtmp)
    let wspd := p0Newest rows (fun r => r.wspd)
    let gust := p0Newest rows (fun r => r.gst)
    let wdir := p0Newest rows (fun r => r.wdir)
    Except.ok
      { airF := airC.map (fun c => oneDecJS (cToF c))
        waterF := waterC.map (fun c => oneDecJS (cToF c))
        windKts := wspd.map (fun m => oneDecJS (mpsToKts m))
        gustKts := gust.map (fun m => oneDecJS (mpsToKts m))
        windDirCardinal := degToCardinalP0 wdir }

/-! ### Nearest-sample selectors

Timestamps are embedded as epoch milliseconds (`ℤ`), the value
`new Date(t).getTime()` yields for each sample's ISO string. -/

/-- One stored forecast sample `{ time, waveFt }` (`weather.js`). -/
structure Wave where
  time : ℤ
  waveFt : Option ℚ
deriving DecidableEq

/-- The persisted forecast object `{ timestamp, waves }` (`weather.js`). -/
structure Forecast where
  timestamp : ℤ
  waves : List Wave
deriving DecidableEq

/-- The wave selection `{ waveFt }` returned by `pickCurrentWave`. -/
structure WavesOut where
  waveFt : Option ℚ
deriving DecidableEq

/-- The loop of `pickCurrentWave`: samples with `waveFt == null` are
skipped; `bd` is the running `bestDiff` (`none` = `Infinity`) and `bw` the
running `best` (`none` = `null`); only a strictly smaller distance updates. -/
def pcwLoop (now : ℤ) : List Wave → Option ℤ → Option Wave → Option Wave
  | [], _, bw => bw
  | w :: t, bd, bw =>
    match w.waveFt with
    | none => pcwLoop now t bd bw
    | some _ =>
      let d := |w.time - now|
      match bd with
      | none => pcwLoop now t (some d) (some w)
      | some b => if d < b then pcwLoop now t (some d) (some w) else pcwLoop now t (some b) bw

/-- Model of `pickCurrentWave` from `weather.js`. -/
def pickCurrentWave (forecast : Option Forecast) (now : ℤ) : WavesOut :=
  match forecast with
  | none => ⟨none⟩
  | some f =>
    if f.waves.isEmpty then ⟨none⟩
    else
      match pcwLoop now f.waves none none with
      | none => ⟨none⟩
      | some w => ⟨w.waveFt⟩

/-- One upstream forecast hour `{ time, waveHeight: { sg } }` (`part_001`),
with the nested magnitude flattened to its `sg` field. -/
structure Hour where
  time : ℤ
  sg : Option ℚ
deriving DecidableEq

/-- The `{ waveM, waveFt }` selection returned by `getClosestWave`. -/
structure WaveRes where
  waveM : Option ℚ
  waveFt : Option ℚ
deriving DecidableEq

/-- The loop of `getClosestWave`: `best` starts at `Infinity` (`none`),
`closest` at `hours[0]`; every hour is compared, a strictly smaller distance
updates. -/
def gcwLoop (now : ℤ) : List Hour → Option ℤ → Hour → Hour
  | [], _, c => c
  | h :: t, best, c =>
    let d := |h.time - now|
    match best with
    | none => gcwLoop now t (some d) h
    | some b => if d < b then gcwLoop now t (some d) h else gcwLoop now t (some b) c

/-- The hour selected by `getClosestWave` (`none` only for an empty list). -/
def gcwClosest (hours : List Hour) (now : ℤ) : Option Hour :=
  match hours with
  | [] => none
  | h0 :: _ => some (gcwLoop now hours none h0)

/-- Model of `getClosestWave` from `part_001`: `{waveM: null, waveFt: null}` for an
empty list, else the closest hour's magnitude, feet via `oneDec(m * 3.28084)`. -/
def getClosestWave (hours : List Hour) (now : ℤ) : WaveRes :=
  match gcwClosest hours now with
  | none => ⟨none, none⟩
  | some c => ⟨c.sg, c.sg.map (fun m => oneDecQ (m * (328084 / 100000 : ℚ)))⟩

/-- Generic "keep the first strict improvement" fold both selector loops
reduce to: the first element of `c :: l` (in order) whose key is minimal. -/
def firstMinBy {α : Type} (f : α → ℤ) : α → List α → α
  | c, [] => c
  | c, h :: t => if f h < f c then firstMinBy f h t else firstMinBy f c t

/-- The selector behaviour claimed by the spec, written from its words:
"return the sample minimizing absolute time distance to the target; ties
broken by earliest sample" — `null` selection for an empty sequence. -/
def specNearestSample (samples : List Wave) (target : ℤ) : Option Wave :=
  match samples with
  | [] => none
  | s :: rest => some (firstMinBy (fun w => |w.time - target|) s rest)

/-! ### Forecast cache staleness -/

/-- Local wall-clock fields of an instant, as read by the `Date` getters
(`getFullYear`/`getMonth`+1/`getDate`/`getHours`/`getMinutes`). -/
structure LocalTime where
  year : ℤ
  month : ℤ
  day : ℤ
  hour : ℤ
  minute : ℤ
deriving DecidableEq

/-- Model of `shouldUpdateStormglass` from `weather.js`: a missing/falsy stored
timestamp forces an update; otherwise update when the day-of-month changed
(`now.getDate() !== last.getDate()`) or when noon was crossed
(`last.getHours() < 12 && now.getHours() >= 12`). -/
def shouldUpdateStormglass (last : Option LocalTime) (now : LocalTime) : Bool :=
  match last with
  | none => true
  | some l => decide (now.day ≠ l.day) || (decide (l.hour < 12) && decide (12 ≤ now.hour))

/-- Strict calendar-date order, i.e. "the wall-clock date has advanced". -/
def dateAdvanced (l n : LocalTime) : Bool :=
  decide (l.year < n.year) ||
    (decide (l.year = n.year) &&
      (decide (l.month < n.month) ||
        (decide (l.month = n.month) && decide (l.day < n.day))))

/-- The boundary-crossing staleness policy written from the spec's words:
stale when the wall-clock date has advanced, or when `fetchedAt` was before
local noon and `now` is at/after local noon. -/
def specStaleBoundary (l n : LocalTime) : Bool :=
  dateAdvanced l n || (decide (l.hour < 12) && decide (12 ≤ n.hour))

/-- The persisted StormGlass cache entry `{ timestamp, waves }` of the
unnamed handler (`part_000`). -/
structure SgCache where
  timestamp : ℤ
  waves : WaveRes
deriving DecidableEq

/-- What one call of `getStormglassCached` does with the store: reuse the
cached waves, or fall through to a fresh upstream fetch (and rewrite the
cache). -/
inductive SgDecision where
  | reuse (w : WaveRes) : SgDecision
  | refetch : SgDecision
deriving DecidableEq

/-- Model of `getStormglassCached` from `part_000`: with a cache file present and
`Date.now() - cache.timestamp < 4 * 60 * 60 * 1000` the stored waves are
returned; otherwise the upstream is fetched again. -/
def getStormglassCached (cache : Option SgCache) (now : ℤ) : SgDecision :=
  match cache with
  | none => SgDecision.refetch
  | some c =>
    if now - c.timestamp < 4 * 60 * 60 * 1000 then SgDecision.reuse c.waves
    else SgDecision.refetch

/-! ### Tides and sun (`usharbors` month data) -/

/-- One tide entry `{ time: "H:MM", ft }` of a parsed month day. -/
structure TideT where
  time : String
  ft : ℚ
deriving DecidableEq

/-- One day's record in the parsed month data. -/
structure DayRec where
  high : List TideT
  low : List TideT
  sunrise : Option String
  sunset : Option String
deriving DecidableEq

/-- The parsed/cached month data `{ year, month, days }` (`days` keyed by
day-of-month). -/
structure MonthData where
  year : ℤ
  month : ℤ
  days : List (ℤ × DayRec)
deriving DecidableEq

/-- Model of `chooseTideForNow`: first entry before local noon, else the second
entry when present (`list[1] ?? list[0]`). -/
def chooseTideForNow (list : List TideT) (hour : ℤ) : Option TideT :=
  match list with
  | [] => none
  | t0 :: rest => if hour < 12 then some t0 else some (rest.headD t0)

/-- Model of `Number(s)` on the pieces of an `"H:MM"` split: a digit string's value,
`none` for `NaN` (empty/non-digit input). -/
def jsNumberNat (s : String) : Option ℕ :=
  if !s.data.isEmpty && s.data.all Char.isDigit then some (digitsToNat s.data) else none

/-- The calendar components `mkISO` feeds to
`new Date(year, month-1, day, H, M)`; the serialization of that `Date` to an
ISO string (a time-zone conversion performed by the runtime) is not
modelled. `none` components model `NaN` from `Number`. -/
structure TideTime where
  year : ℤ
  month : ℤ
  day : ℤ
  hour : Option ℕ
  minute : Option ℕ
deriving DecidableEq

/-- Split at `':'` (JS `t.time.split(":")`). -/
def splitColon (s : String) : List String :=
  (splitNl (s.data.map (fun c => if c = ':' then '\n' else c))).map (fun l => (⟨l⟩ : String))

/-- Model of `mkISO` inside `buildTodayTidesAndSun`. -/
def mkISO (m : MonthData) (day : ℤ) (t : TideT) : TideTime :=
  let ps := splitColon t.time
  { year := m.year, month := m.month, day := day
    hour := jsNumberNat (ps.headD ""), minute := jsNumberNat (ps.getD 1 "") }

/-- One emitted tide `{ t, v }`. -/
structure TideVal where
  t : TideTime
  v : ℚ
deriving DecidableEq

/-- The `tides` object of the response. -/
structure TidesOut where
  high : Option TideVal
  low : Option TideVal
deriving DecidableEq

/-- The `sun` object of the response. -/
structure SunOut where
  sunrise : Option String
  sunset : Option String
deriving DecidableEq

/-- Result of `buildTodayTidesAndSun`. -/
structure TidesSun where
  tides : TidesOut
  sun : SunOut
deriving DecidableEq

/-- Model of `buildTodayTidesAndSun` from `weather.js`: today's record is looked up
by day-of-month; absence of month data or of the record yields the all-null
shape. -/
def buildTodayTidesAndSun (monthData : Option MonthData) (now : LocalTime) : TidesSun :=
  match monthData with
  | none => ⟨⟨none, none⟩, ⟨none, none⟩⟩
  | some m =>
    match m.days.lookup now.day with
    | none => ⟨⟨none, none⟩, ⟨none, none⟩⟩
    | some dr =>
      let high := chooseTideForNow dr.high now.hour
      let low := chooseTideForNow dr.low now.hour
      ⟨⟨high.map (fun h => ⟨mkISO m now.day h, h.ft⟩),
        low.map (fun l => ⟨mkISO m now.day l, l.ft⟩)⟩,
        ⟨dr.sunrise, dr.sunset⟩⟩

/-! ### Service boundary (`weather.js` handler, `part_000` handler) -/

/-- The JSON body of the `weather.js` response (`error` absent on the
success path, modelled as `none`). -/
structure WeatherBody where
  error : Option String
  gulf : Option BuoyRecord
  bay : Option BuoyRecord
  waves : WavesOut
  tides : TidesOut
  sun : SunOut
deriving DecidableEq

/-- The HTTP envelope of the `weather.js` handler. -/
structure HttpResponse where
  statusCode : ℕ
  body : WeatherBody
deriving DecidableEq

/-- The all-null fallback record `safeFetchBuoy` substitutes on error. -/
def nullBuoyRecord : BuoyRecord := ⟨none, none, none, none, "--"⟩

/-- Model of `safeFetchBuoy`: a buoy failure is swallowed and replaced by the
all-null record. -/
def safeFetchBuoy (r : Except String BuoyRecord) : BuoyRecord :=
  match r with
  | Except.ok v => v
  | Except.error _ => nullBuoyRecord

/-- The `weather.js` handler's success path, as a function of the four
settled adapter results (`Promise.all` of the two `safeFetchBuoy` calls and
the two `.catch(... => null)`-guarded fetches) and the clock readings it
uses (`Date.now()` for the wave pick, local fields for tides). -/
def handler (gulfR bayR : Except String BuoyRecord) (sgR : Except String Forecast)
    (monthR : Except String MonthData) (nowMs : ℤ) (now : LocalTime) : HttpResponse :=
  let gulf := safeFetchBuoy gulfR
  let bay := safeFetchBuoy bayR
  let sgForecast : Option Forecast := sgR.toOption
  let monthData : Option MonthData := monthR.toOption
  let wave := pickCurrentWave sgForecast nowMs
  let ts := buildTodayTidesAndSun monthData now
  ⟨200, ⟨none, some gulf, some bay, wave, ts.tides, ts.sun⟩⟩

/-- The `weather.js` handler's outer `catch`: a fatal error is serialized
into the null-populated body shape with an `error` field — and status 200. -/
def handlerFatal (err : String) : HttpResponse :=
  ⟨200, ⟨some err, none, none, ⟨none⟩, ⟨none, none⟩, ⟨none, none⟩⟩⟩

/-- The JSON body of the unnamed handler (`part_000`): either the success
shape `{ gulf, bay, waves }` or the bare error shape `{ error }`. -/
inductive P0Body where
  | okBody (gulf bay : P0Record) (waves : WaveRes) : P0Body
  | errBody (error : String) : P0Body
deriving DecidableEq

/-- The HTTP envelope of the unnamed handler. -/
structure P0Response where
  statusCode : ℕ
  body : P0Body
deriving DecidableEq

/-- The unnamed handler (`part_000`): the buoy fetches and the cache access
run sequentially inside one `try`; the first throw reaches the `catch`,
which answers `500` with `{ error }`. -/
def p0Handler (gulfR bayR : Except String P0Record) (wavesR : Except String WaveRes) :
    P0Response :=
  match gulfR with
  | Except.error e => ⟨500, P0Body.errBody e⟩
  | Except.ok g =>
    match bayR with
    | Except.error e => ⟨500, P0Body.errBody e⟩
    | Except.ok b =>
      match wavesR with
      | Except.error e => ⟨500, P0Body.errBody e⟩
      | Except.ok w => ⟨200, P0Body.okBody g b w⟩

/-! ### Specification-side characterizations -/

/-- The per-field selection rule stated by the spec: the value of a
quantity is taken from the first data row whose token in that quantity's
column parses as a valid number (`none` when no row has one). -/
def firstHit (i : ℤ) (rows : List (List String)) : Option JSNum :=
  rows.findSome? (fun r => parseNum (getTok r i))

/-- Left-biased choice on optional values (JS `a != null ? a : b`). -/
def orO (a b : Option JSNum) : Option JSNum :=
  match a with
  | some x => some x
  | none => b

/-! ## Lemmas -/

theorem orO_none (a : Option JSNum) : orO a none = a := by
  cases a <;> rfl

theorem orO_some_left (x : JSNum) (b : Option JSNum) : orO (some x) b = some x := rfl

section FirstMin

variable {α : Type} (f g : α → ℤ)

theorem firstMinBy_mem (c : α) (l : List α) : firstMinBy f c l ∈ c :: l := by
  induction l generalizing c with
  | nil => simp [firstMinBy]
  | cons h t ih =>
    simp only [firstMinBy]
    by_cases hfc : f h < f c
    · simp only [hfc, if_true]
      have := ih h
      simp only [List.mem_cons] at this ⊢
      tauto
    · simp only [hfc, if_false]
      have := ih c
      simp only [List.mem_cons] at this ⊢
      tauto

theorem firstMinBy_le_init (c : α) (l : List α) : f (firstMinBy f c l) ≤ f c := by
  induction l generalizing c with
  | nil => simp [firstMinBy]
  | cons h t ih =>
    simp only [firstMinBy]
    by_cases hfc : f h < f c
    · simp only [hfc, if_true]
      exact le_trans (ih h) (le_of_lt hfc)
    · simp only [hfc, if_false]
      exact ih c

theorem firstMinBy_le (c : α) (l : List α) : ∀ x ∈ l, f (firstMinBy f c l) ≤ f x := by
  induction l generalizing c with
  | nil => simp
  | cons h t ih =>
    intro x hx
    simp only [firstMinBy]
    by_cases hfc : f h < f c
    · simp only [hfc, if_true]
      rcases List.mem_cons.mp hx with hxh | hx2
      · have hxh2 : h = x := hxh.symm
        subst hxh2
        exact firstMinBy_le_init f h t
      · exact ih h x hx2
    · simp only [hfc, if_false]
      rcases List.mem_cons.mp hx with hxh | hx2
      · have hxh2 : h = x := hxh.symm
        subst hxh2
        exact le_trans (firstMinBy_le_init f c t) (not_lt.mp hfc)
      · exact ih c x hx2

theorem firstMinBy_eq_or_lt (c : α) (l : List α) :
    firstMinBy f c l = c ∨ f (firstMinBy f c l) < f c := by
  induction l generalizing c with
  | nil => left; rfl
  | cons h t ih =>
    simp only [firstMinBy]
    by_cases hfc : f h < f c
    · simp only [hfc, if_true]
      right
      rcases ih h with heq | hlt
      · rw [heq]; exact hfc
      · exact lt_trans hlt hfc
    · simp only [hfc, if_false]
      exact ih c

theorem firstMinBy_tie (c : α) (l : List α)
    (hs : (c :: l).Pairwise (fun a b => g a ≤ g b)) :
    ∀ x ∈ c :: l, f x = f (firstMinBy f c l) → g (firstMinBy f c l) ≤ g x := by
  induction l generalizing c with
  | nil =>
    intro x hx hfx
    simp only [List.mem_cons, List.not_mem_nil, or_false] at hx
    subst hx
    simp [firstMinBy]
  | cons h t ih =>
    intro x hx hfx
    simp only [firstMinBy] at hfx ⊢
    by_cases hfc : f h < f c
    · simp only [hfc, if_true] at hfx ⊢
      rcases List.mem_cons.mp hx with hxc | hx2
      · exfalso
        have hxc2 : c = x := hxc.symm
        subst hxc2
        have h1 : f (firstMinBy f h t) ≤ f h := firstMinBy_le_init f h t
        rw [← hfx] at h1
        exact absurd (lt_of_le_of_lt h1 hfc) (lt_irrefl _)
      · exact ih h (hs.of_cons) x hx2 hfx
    · simp only [hfc, if_false] at hfx ⊢
      have hch : g c ≤ g h := (List.pairwise_cons.mp hs).1 h (by simp)
      have hs2 : (c :: t).Pairwise (fun a b => g a ≤ g b) := by
        rcases List.pairwise_cons.mp hs with ⟨hc, hrest⟩
        exact List.pairwise_cons.mpr
          ⟨fun y hy => hc y (List.mem_cons_of_mem h hy), hrest.of_cons⟩
      rcases List.mem_cons.mp hx with hxc | hx2
      · have hxc2 : c = x := hxc.symm
        subst hxc2
        rcases firstMinBy_eq_or_lt f c t with heq | hlt
        · rw [heq]
        · exfalso
          rw [← hfx] at hlt
          exact absurd hlt (lt_irrefl _)
      · rcases List.mem_cons.mp hx2 with hxh | hx3
        · have hxh2 : h = x := hxh.symm
          subst hxh2
          rcases firstMinBy_eq_or_lt f c t with heq | hlt
          · rw [heq]; exact hch
          · exfalso
            have hcx : f c ≤ f h := not_lt.mp hfc
            rw [← hfx] at hlt
            exact absurd (lt_of_lt_of_le hlt hcx) (lt_irrefl _)
        · exact ih c hs2 x (List.mem_cons_of_mem c hx3) hfx

end FirstMin

section Bridges

theorem gcwLoop_eq_firstMinBy (now : ℤ) (l : List Hour) :
    ∀ c : Hour, gcwLoop now l (some |c.time - now|) c =
      firstMinBy (fun h => |h.time - now|) c l := by
  induction l with
  | nil => intro c; rfl
  | cons h t ih =>
    intro c
    simp only [gcwLoop, firstMinBy]
    by_cases hd : |h.time - now| < |c.time - now|
    · simp only [hd, if_true]
      exact ih h
    · simp only [hd, if_false]
      exact ih c

theorem gcwClosest_eq (now : ℤ) (h0 : Hour) (t : List Hour) :
    gcwClosest (h0 :: t) now = some (firstMinBy (fun h => |h.time - now|) h0 t) := by
  show some (gcwLoop now (h0 :: t) none h0) = _
  simp only [gcwLoop]
  rw [gcwLoop_eq_firstMinBy now t h0]

theorem pcwLoop_some_eq (now : ℤ) (l : List Wave) :
    ∀ c : Wave, pcwLoop now l (some |c.time - now|) (some c) =
      some (firstMinBy (fun w => |w.time - now|) c
        (l.filter (fun w => w.waveFt.isSome))) := by
  induction l with
  | nil => intro c; rfl
  | cons w t ih =>
    intro c
    cases hw : w.waveFt with
    | none =>
      simp only [pcwLoop, hw, List.filter_cons, Option.isSome_none, Bool.false_eq_true,
        if_false]
      exact ih c
    | some q =>
      simp only [pcwLoop, hw, List.filter_cons, Option.isSome_some, if_true]
      by_cases hd : |w.time - now| < |c.time - now|
      · simp only [hd, if_true, firstMinBy]
        exact ih w
      · simp only [hd, if_false, firstMinBy]
        exact ih c

theorem pcwLoop_start (now : ℤ) (l : List Wave) :
    pcwLoop now l none none =
      match l.filter (fun w => w.waveFt.isSome) with
      | [] => none
      | c :: t => some (firstMinBy (fun w => |w.time - now|) c t) := by
  induction l with
  | nil => rfl
  | cons w t ih =>
    cases hw : w.waveFt with
    | none =>
      simp only [pcwLoop, hw, List.filter_cons, Option.isSome_none, Bool.false_eq_true,
        if_false]
      exact ih
    | some q =>
      simp only [pcwLoop, hw, List.filter_cons, Option.isSome_some, if_true]
      exact pcwLoop_some_eq now t w

end Bridges

section ScanLemmas

theorem parseNum_ne_nan (x : Option String) : parseNum x ≠ some JSNum.nan := by
  cases x with
  | none => simp [parseNum]
  | some s =>
    simp only [parseNum]
    by_cases hdd : s = "--"
    · simp [hdd]
    · simp only [hdd, if_false]
      cases h : jsParseFloat s <;> simp

theorem firstHit_ne_nan (i : ℤ) (rows : List (List String)) :
    firstHit i rows ≠ some JSNum.nan := by
  induction rows with
  | nil => simp [firstHit]
  | cons r t ih =>
    simp only [firstHit, List.findSome?_cons]
    cases h : parseNum (getTok r i) with
    | none => exact ih
    | some v =>
      intro hcon
      exact parseNum_ne_nan (getTok r i) (by rw [h, Option.some_inj.mp hcon])

theorem firstHit_neg_one (rows : List (List String)) : firstHit (-1) rows = none := by
  induction rows with
  | nil => rfl
  | cons r t ih =>
    have hg : getTok r (-1) = none := by norm_num [getTok]
    simp only [firstHit, List.findSome?_cons, hg]
    exact ih

theorem stepField_orO (cur : Option JSNum) (i : ℤ) (r : List String)
    (t : List (List String)) :
    orO (stepField cur i r) (firstHit i t) = orO cur (firstHit i (r :: t)) := by
  cases cur with
  | some x => simp [stepField, orO]
  | none =>
    by_cases hi : i = -1
    · subst hi
      have hg : getTok r (-1) = none := by norm_num [getTok]
      simp [stepField, orO, firstHit_neg_one, firstHit, List.findSome?_cons, hg, parseNum]
    · simp only [stepField, hi, ne_eq, not_false_iff, and_true, if_true]
      simp only [firstHit, List.findSome?_cons]
      cases h : parseNum (getTok r i) with
      | none => simp [orO]
      | some v => simp [orO]

theorem stepField_some (cur : Option JSNum) (i : ℤ) (r : List String)
    (t : List (List String)) (x : JSNum) (hx : stepField cur i r = some x) :
    orO cur (firstHit i (r :: t)) = some x := by
  have h := stepField_orO cur i r t
  rw [hx, orO_some_left] at h
  exact h.symm

theorem buoyScan_spec (idx : BuoyIdx) :
    ∀ (rows : List (List String)) (v : RawVals),
      buoyScan idx rows v =
        ⟨orO v.airC (firstHit idx.atmp rows), orO v.waterC (firstHit idx.wtmp rows),
         orO v.wspd (firstHit idx.wspd rows), orO v.gust (firstHit idx.gst rows),
         orO v.wdir (firstHit idx.wdir rows)⟩ := by
  intro rows
  induction rows with
  | nil =>
    intro v
    simp only [buoyScan, firstHit, List.findSome?_nil, orO_none]
  | cons r t ih =>
    intro v
    simp only [buoyScan]
    by_cases hall : allFound (scanStep idx r v) = true
    · simp only [hall, if_true]
      simp only [allFound, Bool.and_eq_true, Option.isSome_iff_exists] at hall
      obtain ⟨⟨⟨⟨⟨a1, h1⟩, ⟨a2, h2⟩⟩, ⟨a3, h3⟩⟩, ⟨a4, h4⟩⟩, a5, h5⟩ := hall
      simp only [scanStep] at h1 h2 h3 h4 h5 ⊢
      rw [h1, h2, h3, h4, h5,
        ← stepField_some v.airC idx.atmp r t a1 h1,
        ← stepField_some v.waterC idx.wtmp r t a2 h2,
        ← stepField_some v.wspd idx.wspd r t a3 h3,
        ← stepField_some v.gust idx.gst r t a4 h4,
        ← stepField_some v.wdir idx.wdir r t a5 h5]
    · rw [if_neg hall, ih (scanStep idx r v)]
      simp only [scanStep]
      rw [stepField_orO v.airC idx.atmp r t,
        stepField_orO v.waterC idx.wtmp r t,
        stepField_orO v.wspd idx.wspd r t,
        stepField_orO v.gust idx.gst r t,
        stepField_orO v.wdir idx.wdir r t]

theorem jsRound1_cToF_ne_nan (v : JSNum) (h : v ≠ JSNum.nan) :
    jsRound1 (cToF v) ≠ JSNum.nan := by
  cases v <;> simp [cToF, jsRound1] at *

theorem jsRound1_mpsToKts_ne_nan (v : JSNum) (h : v ≠ JSNum.nan) :
    jsRound1 (mpsToKts v) ≠ JSNum.nan := by
  cases v <;> simp [mpsToKts, jsRound1] at *

theorem jsValid_ne_nan (o : Option JSNum) : jsValid o ≠ some JSNum.nan := by
  match o with
  | none => simp [jsValid]
  | some JSNum.nan => simp [jsValid]
  | some (JSNum.inf b) => simp [jsValid]
  | some (JSNum.num q) => simp [jsValid]

theorem p0Newest_ne_nan (rows : List P0Row) (f : P0Row → Option JSNum) :
    p0Newest rows f ≠ some JSNum.nan := by
  induction rows with
  | nil => simp [p0Newest]
  | cons r t ih =>
    simp only [p0Newest, List.findSome?_cons]
    cases h : jsValid (f r) with
    | none => exact ih
    | some v =>
      intro hcon
      exact jsValid_ne_nan (f r) (by rw [h, Option.some_inj.mp hcon])

end ScanLemmas

/-! ## Claim theorems -/

/-- C4: when the wave-forecast upstream fails but the buoy and tide fetches
succeed, the `weather.js` handler still answers 200 with a body carrying the
fetched buoy records and the tides/sun built from the month data, and
`{waveFt: null}` for the waves — no error escapes the service boundary. -/
theorem c4_degraded_waves (g b : BuoyRecord) (e : String) (m : MonthData)
    (nowMs : ℤ) (now : LocalTime) :
    handler (Except.ok g) (Except.ok b) (Except.error e) (Except.ok m) nowMs now =
      ⟨200, ⟨none, some g, some b, ⟨none⟩,
        (buildTodayTidesAndSun (some m) now).tides,
        (buildTodayTidesAndSun (some m) now).sun⟩⟩ := rfl

/-- C6: the `weather.js` buoy scan determines each of the five output
quantities independently: every field of the emitted record equals the
(converted) value from the first data row, in report order, whose token in
that field's column parses as a valid number (`firstHit`, written from the
spec's words), and is null (`"--"` for the direction) when no row has one —
hence different fields may come from different rows. -/
theorem c6_per_field_newest (idx : BuoyIdx) (rows : List (List String)) :
    mkBuoyRecord (buoyScan idx rows ⟨none, none, none, none, none⟩) =
      { airF := (firstHit idx.atmp rows).map (fun c => jsRound1 (cToF c)),
        waterF := (firstHit idx.wtmp rows).map (fun c => jsRound1 (cToF c)),
        windKts := (firstHit idx.wspd rows).map (fun m => jsRound1 (mpsToKts m)),
        gustKts := (firstHit idx.gst rows).map (fun m => jsRound1 (mpsToKts m)),
        windDirCardinal := degToCardinal (firstHit idx.wdir rows) } := by
  rw [buoyScan_spec idx rows ⟨none, none, none, none, none⟩]
  simp only [mkBuoyRecord]
  cases h : firstHit idx.wdir rows <;> simp [orO, degToCardinal, h]

/-- C7 (counterexample): the claim says every report whose header line
cannot be located fails with a malformed-report error. For the headerless
report `"2025 10 12 00 00 180 5.0"` (no `#`-marked header line is present,
as `p0HeaderLine = none` witnesses) the `weather.js` parser does not fail:
it silently treats the lone data row as the header and emits the all-null
record. -/
theorem c7_header_cex :
    p0HeaderLine "2025 10 12 00 00 180 5.0" = none ∧
    fetchBuoyWJS "2025 10 12 00 00 180 5.0" =
      Except.ok ⟨none, none, none, none, "--"⟩ := by
  with_unfolding_all decide

/-- C7 (amended): the unnamed-handler parser fails (throws, embedded as
`Except.error`) whenever the `#`-marked `WDIR` header line is absent, and
that failure propagates as a total source failure (its handler answers 500
with only an error body, no partial record); the `weather.js` variant
instead errors only when the report has no non-comment lines at all. -/
theorem c7_header_amended :
    (∀ text : String, p0HeaderLine text = none →
      fetchBuoyP0 text = Except.error "TypeError: cannot read properties of undefined") ∧
    (∀ (text : String) (b : Except String P0Record) (w : Except String WaveRes),
      p0HeaderLine text = none →
      p0Handler (fetchBuoyP0 text) b w =
        ⟨500, P0Body.errBody "TypeError: cannot read properties of undefined"⟩) ∧
    (∀ text : String, wjsRows text = [] →
      fetchBuoyWJS text = Except.error "TypeError: cannot read header") := by
  refine ⟨fun text h => ?_, fun text b w h => ?_, fun text h => ?_⟩
  · simp [fetchBuoyP0, p0Header, h]
  · simp [p0Handler, fetchBuoyP0, p0Header, h]
  · simp [fetchBuoyWJS, h]

/-- C7 (witness): a report with no `#`-marked header makes the unnamed
handler's parser fail and its service answer 500; a report with only a
comment line makes the `weather.js` parser fail. -/
theorem c7_header_witness :
    fetchBuoyP0 "hello world" =
      Except.error "TypeError: cannot read properties of undefined" ∧
    p0Handler (fetchBuoyP0 "hello world")
        (Except.ok ⟨none, none, none, none, none⟩) (Except.ok ⟨none, none⟩) =
      ⟨500, P0Body.errBody "TypeError: cannot read properties of undefined"⟩ ∧
    fetchBuoyWJS "# x" = Except.error "TypeError: cannot read header" :=
  ⟨c7_header_amended.1 "hello world" (by with_unfolding_all decide),
   c7_header_amended.2.1 "hello world" _ _ (by with_unfolding_all decide),
   c7_header_amended.2.2 "# x" (by with_unfolding_all decide)⟩

/-- C10 (counterexample): the claim says every numeric field is null or a
*finite* number. The token `"Infinity"` parses to `Infinity` (not `NaN`, so
`parseNum` keeps it), and the emitted `airF` is the non-finite
`Infinity`. -/
theorem c10_numeric_cex :
    fetchBuoyWJS "ATMP\nInfinity" =
      Except.ok ⟨some (JSNum.inf false), none, none, none, "--"⟩ ∧
    (JSNum.inf false).isFinite = false := by
  with_unfolding_all decide

/-- C10 (amended): `parseNum` maps the sentinel `"--"` and every token
without a numeric prefix to null, and `NaN` never appears in an emitted
record (neither in the `weather.js` record fields nor in the unnamed
handler's `newest` selections) — but the surviving values need not be
finite, since the token `"Infinity"` parses to a non-finite number. -/
theorem c10_numeric_amended :
    parseNum (some "--") = none ∧
    (∀ s : String, jsParseFloat s = JSNum.nan → parseNum (some s) = none) ∧
    (∀ (idx : BuoyIdx) (rows : List (List String)),
      (mkBuoyRecord (buoyScan idx rows ⟨none, none, none, none, none⟩)).airF ≠
          some JSNum.nan ∧
      (mkBuoyRecord (buoyScan idx rows ⟨none, none, none, none, none⟩)).waterF ≠
          some JSNum.nan ∧
      (mkBuoyRecord (buoyScan idx rows ⟨none, none, none, none, none⟩)).windKts ≠
          some JSNum.nan ∧
      (mkBuoyRecord (buoyScan idx rows ⟨none, none, none, none, none⟩)).gustKts ≠
          some JSNum.nan) ∧
    (∀ (rows : List P0Row) (f : P0Row → Option JSNum),
      p0Newest rows f ≠ some JSNum.nan) := by
  refine ⟨by decide, fun s h => ?_, fun idx rows => ?_, p0Newest_ne_nan⟩
  · by_cases hdd : s = "--" <;> simp [parseNum, hdd, h]
  · rw [buoyScan_spec idx rows ⟨none, none, none, none, none⟩]
    simp only [mkBuoyRecord]
    refine ⟨?_, ?_, ?_, ?_⟩
    · cases h : firstHit idx.atmp rows with
      | none => simp [orO]
      | some v =>
        simp only [orO, Option.map_some', ne_eq, Option.some_inj]
        exact jsRound1_cToF_ne_nan v (fun hv => firstHit_ne_nan idx.atmp rows (by rw [h, hv]))
    · cases h : firstHit idx.wtmp rows with
      | none => simp [orO]
      | some v =>
        simp only [orO, Option.map_some', ne_eq, Option.some_inj]
        exact jsRound1_cToF_ne_nan v (fun hv => firstHit_ne_nan idx.wtmp rows (by rw [h, hv]))
    · cases h : firstHit idx.wspd rows with
      | none => simp [orO]
      | some v =>
        simp only [orO, Option.map_some', ne_eq, Option.some_inj]
        exact jsRound1_mpsToKts_ne_nan v (fun hv => firstHit_ne_nan idx.wspd rows (by rw [h, hv]))
    · cases h : firstHit idx.gst rows with
      | none => simp [orO]
      | some v =>
        simp only [orO, Option.map_some', ne_eq, Option.some_inj]
        exact jsRound1_mpsToKts_ne_nan v (fun hv => firstHit_ne_nan idx.gst rows (by rw [h, hv]))

/-- C10 (witness): the non-parsing token `"MM"` maps to null, and a record
built from a report with an `Infinity` air-temperature token still carries
no `NaN`. -/
theorem c10_numeric_witness :
    parseNum (some "MM") = none ∧
    (mkBuoyRecord (buoyScan ⟨-1, -1, -1, 0, -1⟩ [["Infinity"]]
        ⟨none, none, none, none, none⟩)).airF ≠ some JSNum.nan :=
  ⟨c10_numeric_amended.2.1 "MM" (by with_unfolding_all decide),
   (c10_numeric_amended.2.2.1 ⟨-1, -1, -1, 0, -1⟩ [["Infinity"]]).1⟩

/-- C2 (counterexample): the claim says a cache entry is stale exactly when
the wall-clock date has advanced (or the noon boundary was crossed).
For a fetch at 13:00 on 2025-01-05 checked at 13:00 on 2025-02-05 the date
has advanced by a month, yet `shouldUpdateStormglass` — which compares only
`getDate()`, the day-of-month — reports the entry fresh. -/
theorem c2_staleness_cex :
    specStaleBoundary ⟨2025, 1, 5, 13, 0⟩ ⟨2025, 2, 5, 13, 0⟩ = true ∧
    shouldUpdateStormglass (some ⟨2025, 1, 5, 13, 0⟩) ⟨2025, 2, 5, 13, 0⟩ = false := by
  decide

/-- C2 (amended): `shouldUpdateStormglass` reports an entry stale exactly
when the *day-of-month* differs between fetch and check, or when the fetch
hour was before 12 and the check hour is at least 12; in particular a fetch
at 11:00 local is stale at 12:30 the same day and fresh at 11:30 the same
day. -/
theorem c2_staleness_amended :
    (∀ l n : LocalTime,
      shouldUpdateStormglass (some l) n = true ↔
        (n.day ≠ l.day ∨ (l.hour < 12 ∧ 12 ≤ n.hour))) ∧
    shouldUpdateStormglass (some ⟨2025, 3, 10, 11, 0⟩) ⟨2025, 3, 10, 12, 30⟩ = true ∧
    shouldUpdateStormglass (some ⟨2025, 3, 10, 11, 0⟩) ⟨2025, 3, 10, 11, 30⟩ = false := by
  refine ⟨fun l n => ?_, by decide, by decide⟩
  simp [shouldUpdateStormglass]

/-- C3: with a cache entry fetched at `T`, `getStormglassCached` reuses the
stored waves at every check instant with `now - T < 4` hours and falls
through to a fresh upstream fetch at every check instant with
`now - T ≥ 4` hours. -/
theorem c3_cache_freshness (c : SgCache) (now : ℤ) :
    (now - c.timestamp < 4 * 60 * 60 * 1000 →
      getStormglassCached (some c) now = SgDecision.reuse c.waves) ∧
    (4 * 60 * 60 * 1000 ≤ now - c.timestamp →
      getStormglassCached (some c) now = SgDecision.refetch) := by
  refine ⟨fun h => ?_, fun h => ?_⟩ <;>
    simp only [getStormglassCached] <;> split_ifs <;> first | rfl | omega

/-- C3 (witness): at `T = 0`, a check at `T + 3h59m` (14340000 ms) reuses
the entry and a check at `T + 4h01m` (14460000 ms) refetches. -/
theorem c3_cache_freshness_witness :
    getStormglassCached (some ⟨0, ⟨none, none⟩⟩) 14340000 =
      SgDecision.reuse ⟨none, none⟩ ∧
    getStormglassCached (some ⟨0, ⟨none, none⟩⟩) 14460000 = SgDecision.refetch :=
  ⟨(c3_cache_freshness ⟨0, ⟨none, none⟩⟩ 14340000).1 (by decide),
   (c3_cache_freshness ⟨0, ⟨none, none⟩⟩ 14460000).2 (by decide)⟩

/-- C5 (counterexample): the claim says 22.5° maps to `"N"`, but
`degToCardinal` computes `dirs[Math.floor(22.5 / 22.5 + 0.5)] = dirs[1]`,
which is `"NNE"` (22.5° is the centre of the NNE sector). -/
theorem c5_compass_cex :
    degToCardinal (some (JSNum.num (45 / 2))) = "NNE" ∧
    degToCardinal (some (JSNum.num (45 / 2))) ≠ "N" := by
  with_unfolding_all decide

/-- C5 (amended): `degToCardinal` maps 0 and 360 to `"N"` and 90 to `"E"`,
but 22.5 to `"NNE"`; the unnamed handler's variant agrees on all four. -/
theorem c5_compass_amended :
    degToCardinal (some (JSNum.num 0)) = "N" ∧
    degToCardinal (some (JSNum.num 360)) = "N" ∧
    degToCardinal (some (JSNum.num 90)) = "E" ∧
    degToCardinal (some (JSNum.num (45 / 2))) = "NNE" ∧
    degToCardinalP0 (some (JSNum.num 0)) = some "N" ∧
    degToCardinalP0 (some (JSNum.num 360)) = some "N" ∧
    degToCardinalP0 (some (JSNum.num 90)) = some "E" ∧
    degToCardinalP0 (some (JSNum.num (45 / 2))) = some "NNE" := by
  with_unfolding_all decide

/-- C9 (counterexample): the claim says a fatal failure surfaces as a
5xx-equivalent response; the `weather.js` outer catch in fact answers with
status code 200. -/
theorem c9_fatal_cex :
    (handlerFatal "boom").statusCode = 200 ∧
    ¬(500 ≤ (handlerFatal "boom").statusCode ∧ (handlerFatal "boom").statusCode < 600) := by
  decide

/-- C9 (amended): every fatal path still answers with a well-formed JSON
body, but the shapes differ between the variants: the `weather.js` catch
returns status 200 with the null-populated aggregate shape plus an `error`
field, while the unnamed handler's catch returns status 500 with a body
containing only the `error` field (not the null-populated shape). -/
theorem c9_fatal_amended :
    (∀ err : String,
      handlerFatal err =
        ⟨200, ⟨some err, none, none, ⟨none⟩, ⟨none, none⟩, ⟨none, none⟩⟩⟩) ∧
    (∀ (e : String) (b : Except String P0Record) (w : Except String WaveRes),
      p0Handler (Except.error e) b w = ⟨500, P0Body.errBody e⟩) := by
  exact ⟨fun err => rfl, fun e b w => rfl⟩

/-- C1 (counterexample): the claim says the selector returns the sample at
minimal time distance. On the time-ordered sequence
`[{time 0, waveFt null}, {time 1000, waveFt 2}]` with target 0, the uniquely
nearest sample (per the spec's own rule, `specNearestSample`) is the first
one, whose magnitude is null — yet `pickCurrentWave` skips null-magnitude
samples and returns the farther sample's `2`. -/
theorem c1_selector_cex :
    List.Pairwise (fun a b : Wave => a.time ≤ b.time) [⟨0, none⟩, ⟨1000, some 2⟩] ∧
    specNearestSample [⟨0, none⟩, ⟨1000, some 2⟩] 0 = some ⟨0, none⟩ ∧
    pickCurrentWave (some ⟨0, [⟨0, none⟩, ⟨1000, some 2⟩]⟩) 0 = ⟨some 2⟩ ∧
    (⟨some 2⟩ : WavesOut) ≠ ⟨(⟨0, none⟩ : Wave).waveFt⟩ := by
  with_unfolding_all decide

/-- C1 (amended): on a time-ordered sequence, `getClosestWave` selects the
sample with minimal `|time - target|`, earliest on exact ties;
`pickCurrentWave` does the same but only among the samples whose magnitude
is non-null (skipping null-magnitude samples entirely), and returns that
sample's magnitude. -/
theorem c1_selector_amended :
    (∀ (hours : List Hour) (now : ℤ) (h0 : Hour) (t : List Hour),
        hours = h0 :: t →
        hours.Pairwise (fun a b => a.time ≤ b.time) →
        ∃ r, gcwClosest hours now = some r ∧ r ∈ hours ∧
          (∀ x ∈ hours, |r.time - now| ≤ |x.time - now|) ∧
          (∀ x ∈ hours, |x.time - now| = |r.time - now| → r.time ≤ x.time) ∧
          getClosestWave hours now =
            ⟨r.sg, r.sg.map (fun m => oneDecQ (m * (328084 / 100000 : ℚ)))⟩) ∧
    (∀ (f : Forecast) (now : ℤ) (w0 : Wave) (t : List Wave),
        f.waves.Pairwise (fun a b => a.time ≤ b.time) →
        f.waves.filter (fun w => w.waveFt.isSome) = w0 :: t →
        ∃ r, r ∈ f.waves ∧ r.waveFt.isSome = true ∧
          (∀ x ∈ f.waves, x.waveFt.isSome = true → |r.time - now| ≤ |x.time - now|) ∧
          (∀ x ∈ f.waves, x.waveFt.isSome = true →
            |x.time - now| = |r.time - now| → r.time ≤ x.time) ∧
          pickCurrentWave (some f) now = ⟨r.waveFt⟩) := by
  constructor
  · intro hours now h0 t heq hs
    subst heq
    refine ⟨firstMinBy (fun h => |h.time - now|) h0 t, gcwClosest_eq now h0 t,
      firstMinBy_mem _ h0 t, ?_, ?_, ?_⟩
    · intro x hx
      rcases List.mem_cons.mp hx with hxh | hx2
      · rw [hxh]
        exact firstMinBy_le_init (fun h => |h.time - now|) h0 t
      · exact firstMinBy_le (fun h => |h.time - now|) h0 t x hx2
    · intro x hx hfx
      exact firstMinBy_tie (fun h => |h.time - now|) (fun h => h.time) h0 t hs x hx hfx
    · simp only [getClosestWave, gcwClosest_eq now h0 t]
  · intro f now w0 t hs hfil
    have hloop := pcwLoop_start now f.waves
    rw [hfil] at hloop
    have hmem : firstMinBy (fun w => |w.time - now|) w0 t ∈ w0 :: t :=
      firstMinBy_mem _ w0 t
    have hmemf : firstMinBy (fun w => |w.time - now|) w0 t ∈
        f.waves.filter (fun w => w.waveFt.isSome) := by
      rw [hfil]; exact hmem
    have hrw := List.mem_filter.mp hmemf
    refine ⟨firstMinBy (fun w => |w.time - now|) w0 t, hrw.1, hrw.2, ?_, ?_, ?_⟩
    · intro x hx hxs
      have hxf : x ∈ w0 :: t := by
        rw [← hfil]; exact List.mem_filter.mpr ⟨hx, hxs⟩
      rcases List.mem_cons.mp hxf with hxh | hx2
      · rw [hxh]
        exact firstMinBy_le_init (fun w => |w.time - now|) w0 t
      · exact firstMinBy_le (fun w => |w.time - now|) w0 t x hx2
    · intro x hx hxs hfx
      have hpair : (w0 :: t).Pairwise (fun a b : Wave => a.time ≤ b.time) := by
        rw [← hfil]; exact hs.sublist (List.filter_sublist _)
      have hxf : x ∈ w0 :: t := by
        rw [← hfil]; exact List.mem_filter.mpr ⟨hx, hxs⟩
      exact firstMinBy_tie (fun w => |w.time - now|) (fun w => w.time) w0 t hpair x hxf hfx
    · have hne : f.waves ≠ [] := by
        intro hcon
        rw [hcon] at hfil
        simp at hfil
      simp only [pickCurrentWave]
      rw [if_neg (by simpa using hne), hloop]

/-- C1 (witness): on `[{0, 1ft}, {100, 2ft}]` at target 60 the selector
facts hold with the nearer second sample; on `[{0, null}, {50, 1ft}]` at
target 0 `pickCurrentWave` returns the non-null sample's magnitude. -/
theorem c1_selector_witness :
    (∃ r, gcwClosest [⟨0, some 1⟩, ⟨100, some 2⟩] 60 = some r ∧
      r ∈ [(⟨0, some 1⟩ : Hour), ⟨100, some 2⟩] ∧
      (∀ x ∈ [(⟨0, some 1⟩ : Hour), ⟨100, some 2⟩], |r.time - 60| ≤ |x.time - 60|) ∧
      (∀ x ∈ [(⟨0, some 1⟩ : Hour), ⟨100, some 2⟩],
        |x.time - 60| = |r.time - 60| → r.time ≤ x.time) ∧
      getClosestWave [⟨0, some 1⟩, ⟨100, some 2⟩] 60 =
        ⟨r.sg, r.sg.map (fun m => oneDecQ (m * (328084 / 100000 : ℚ)))⟩) ∧
    (∃ r, r ∈ (⟨0, [⟨0, none⟩, ⟨50, some 1⟩]⟩ : Forecast).waves ∧ r.waveFt.isSome = true ∧
      (∀ x ∈ (⟨0, [⟨0, none⟩, ⟨50, some 1⟩]⟩ : Forecast).waves,
        x.waveFt.isSome = true → |r.time - 0| ≤ |x.time - 0|) ∧
      (∀ x ∈ (⟨0, [⟨0, none⟩, ⟨50, some 1⟩]⟩ : Forecast).waves,
        x.waveFt.isSome = true → |x.time - 0| = |r.time - 0| → r.time ≤ x.time) ∧
      pickCurrentWave (some ⟨0, [⟨0, none⟩, ⟨50, some 1⟩]⟩) 0 = ⟨r.waveFt⟩) :=
  ⟨c1_selector_amended.1 [⟨0, some 1⟩, ⟨100, some 2⟩] 60 ⟨0, some 1⟩ [⟨100, some 2⟩]
      rfl (by decide),
   c1_selector_amended.2 ⟨0, [⟨0, none⟩, ⟨50, some 1⟩]⟩ 0 ⟨50, some 1⟩ []
      (by decide) (by decide)⟩

/-- C8: both selectors return a null selection, not an error, whenever the
sequence is empty or every sample's magnitude is null: `pickCurrentWave`
yields `{waveFt: null}` for a missing forecast, an empty list, and an
all-null list; `getClosestWave` yields `{waveM: null, waveFt: null}` for an
empty list and an all-null list. -/
theorem c8_null_selection :
    (∀ now : ℤ, pickCurrentWave none now = ⟨none⟩) ∧
    (∀ (f : Forecast) (now : ℤ), f.waves = [] → pickCurrentWave (some f) now = ⟨none⟩) ∧
    (∀ (f : Forecast) (now : ℤ), (∀ w ∈ f.waves, w.waveFt = none) →
      pickCurrentWave (some f) now = ⟨none⟩) ∧
    (∀ now : ℤ, getClosestWave [] now = ⟨none, none⟩) ∧
    (∀ (hours : List Hour) (now : ℤ), (∀ h ∈ hours, h.sg = none) →
      getClosestWave hours now = ⟨none, none⟩) := by
  refine ⟨fun now => rfl, fun f now h => ?_, fun f now h => ?_, fun now => rfl,
    fun hours now h => ?_⟩
  · simp [pickCurrentWave, h]
  · have hfil : f.waves.filter (fun w => w.waveFt.isSome) = [] :=
      List.filter_eq_nil_iff.mpr (fun w hw => by simp [h w hw])
    have hloop := pcwLoop_start now f.waves
    rw [hfil] at hloop
    by_cases he : f.waves.isEmpty
    · simp [pickCurrentWave, he]
    · simp only [pickCurrentWave]
      rw [if_neg he, hloop]
  · cases hours with
    | nil => rfl
    | cons h0 t =>
      have hmem : firstMinBy (fun x => |x.time - now|) h0 t ∈ h0 :: t :=
        firstMinBy_mem _ h0 t
      have hsg : (firstMinBy (fun x => |x.time - now|) h0 t).sg = none :=
        h _ hmem
      simp only [getClosestWave, gcwClosest_eq now h0 t, hsg, Option.map_none']

/-- C8 (witness): a one-sample all-null sequence yields the null selection
from both selectors. -/
theorem c8_null_selection_witness :
    pickCurrentWave (some ⟨0, [⟨5, none⟩]⟩) 9 = ⟨none⟩ ∧
    getClosestWave [⟨5, none⟩] 9 = ⟨none, none⟩ :=
  ⟨c8_null_selection.2.2.1 ⟨0, [⟨5, none⟩]⟩ 9 (by decide),
   c8_null_selection.2.2.2.2 [⟨5, none⟩] 9 (by decide)⟩

end SpiWeather
